import Mathlib

/-!
Verification of the AI-analysis core of a Grafana panel plugin
(`src/utils/aiAnalysis.ts`): anomaly detectors (z-score, IQR, and the
reconstruction-error method's fallback chain), the trend forecaster's
deterministic linear fallback, the insight generator, and the statistics
calculator.

Modelling conventions:
* JavaScript numbers are modelled as exact rationals (`ℚ`) wherever the source
  performs field arithmetic, and as reals (`ℝ`) where `Math.sqrt` / `Math.exp`
  enter.  IEEE rounding is outside the embedding.
* `Date.now()` is ambient mutable state in the source; it is made an explicit
  `now : ℤ` parameter (milliseconds).
* JavaScript `array.sort((a, b) => a - b)` is a stable ascending sort,
  modelled by `List.insertionSort (· ≤ ·)`.
* In Lean, `q / 0 = 0` for rationals and reals, whereas IEEE division of a
  positive number by zero yields `+∞`.  Wherever a source division can have a
  zero divisor this is called out next to the definition.
-/

namespace AIAnalysis

/-- The `method` tag of an anomaly record (`'zscore' | 'iqr' | 'ml'`). -/
inductive Method
  | zscore
  | iqr
  | ml
deriving DecidableEq, Repr

/-- `AnomalyResult` from `types.ts`: index, value, synthesized timestamp,
method-specific score, method tag.  The score is real-valued because the
z-score and ml variants divide by a square root. -/
structure AnomalyResult where
  index : ℕ
  value : ℚ
  timestamp : ℤ
  score : ℝ
  method : Method

/-- `TrendPrediction` from `types.ts`: timestamp (ms epoch), forecast value,
confidence.  The value is real (exponential dampening); the confidence is
rational in both forecaster paths. -/
structure TrendPrediction where
  timestamp : ℤ
  value : ℝ
  confidence : ℚ

/-- `data.reduce((a, b) => a + b, 0) / data.length` — arithmetic mean. -/
def mean (data : List ℚ) : ℚ :=
  data.sum / data.length

/-- `data.reduce((sum, val) => sum + Math.pow(val - mean, 2), 0) / data.length`
— population variance (divide by count). -/
def variance (data : List ℚ) : ℚ :=
  (data.map (fun v => (v - mean data) ^ 2)).sum / data.length

/-- `Math.sqrt(variance)` — population standard deviation. -/
noncomputable def std (data : List ℚ) : ℝ :=
  Real.sqrt ((variance data : ℚ) : ℝ)

/-- `Math.abs((value - mean) / (std || 1))` — the z-score of one sample.
`std || 1` replaces a zero standard deviation by 1. -/
noncomputable def zScore (data : List ℚ) (value : ℚ) : ℝ :=
  |(((value : ℝ) - ((mean data : ℚ) : ℝ)) / (if std data = 0 then 1 else std data))|

/-- `detectAnomaliesZScore(data, sensitivity)` (source lines 10–39): fewer than
3 samples yields `[]`; otherwise every sample whose z-score strictly exceeds
`sensitivity` is reported in index order, with timestamp
`now - (data.length - index) * 1000`. -/
noncomputable def detectAnomaliesZScore (data : List ℚ) (sensitivity : ℚ)
    (now : ℤ) : List AnomalyResult :=
  if data.length < 3 then []
  else
    data.enum.filterMap (fun p =>
      if (sensitivity : ℝ) < zScore data p.2 then
        some { index := p.1
               value := p.2
               timestamp := now - ((data.length : ℤ) - (p.1 : ℤ)) * 1000
               score := zScore data p.2
               method := Method.zscore }
      else none)

lemma variance_nonneg (data : List ℚ) : 0 ≤ variance data := by
  unfold variance
  apply div_nonneg _ (by positivity)
  apply List.sum_nonneg
  intro x hx
  obtain ⟨v, _, rfl⟩ := List.mem_map.mp hx
  positivity

/-- With positive variance, the strict z-score comparison against a nonnegative
sensitivity is equivalent to a rational comparison of squares. -/
lemma zScore_gt_iff (data : List ℚ) (x s : ℚ) (hv : 0 < variance data)
    (hs : 0 ≤ s) :
    ((s : ℚ) : ℝ) < zScore data x ↔
      s ^ 2 * variance data < (x - mean data) ^ 2 := by
  have hvr : (0 : ℝ) < ((variance data : ℚ) : ℝ) := by exact_mod_cast hv
  have hstd : 0 < std data := Real.sqrt_pos.mpr hvr
  rw [zScore, if_neg (ne_of_gt hstd), abs_div, abs_of_pos hstd, lt_div_iff₀ hstd]
  rw [← pow_lt_pow_iff_left₀ (mul_nonneg (by exact_mod_cast hs) hstd.le)
    (abs_nonneg _) (two_ne_zero)]
  rw [mul_pow, sq_abs, std, Real.sq_sqrt hvr.le]
  constructor <;> intro h <;> exact_mod_cast h

lemma filterMap_eq_filter_map_of_pointwise {α β : Type} (l : List α)
    (g : α → Option β) (q : α → Bool) (f : α → β)
    (h : ∀ a, g a = if q a then some (f a) else none) :
    l.filterMap g = (l.filter q).map f := by
  induction l with
  | nil => rfl
  | cons a t ih =>
    rw [List.filterMap_cons, List.filter_cons, h a]
    cases hq : q a <;> simp [hq, ih]

/-- The index trace of the z-score detector, rewritten into a fully computable
rational filter (valid when the variance is positive and the sensitivity is
nonnegative). -/
lemma detectZScore_indices (data : List ℚ) (s : ℚ) (now : ℤ)
    (h3 : ¬ data.length < 3) (hv : 0 < variance data) (hs : 0 ≤ s) :
    (detectAnomaliesZScore data s now).map AnomalyResult.index
      = (data.enum.filter
          (fun p => decide (s ^ 2 * variance data < (p.2 - mean data) ^ 2))).map
            Prod.fst := by
  rw [detectAnomaliesZScore, if_neg h3, List.map_filterMap]
  apply filterMap_eq_filter_map_of_pointwise
  intro p
  by_cases hc : ((s : ℚ) : ℝ) < zScore data p.2
  · rw [if_pos hc, if_pos (decide_eq_true ((zScore_gt_iff data p.2 s hv hs).mp hc))]
    rfl
  · rw [if_neg hc, if_neg]
    · rfl
    · simp only [decide_eq_true_eq]
      exact fun hq => hc ((zScore_gt_iff data p.2 s hv hs).mpr hq)

lemma mean_replicate {n : ℕ} (hn : n ≠ 0) (c : ℚ) :
    mean (List.replicate n c) = c := by
  have hq : ((n : ℚ)) ≠ 0 := Nat.cast_ne_zero.mpr hn
  rw [mean, List.sum_replicate, List.length_replicate, nsmul_eq_mul,
    mul_div_cancel_left₀ c hq]

lemma variance_replicate {n : ℕ} (hn : n ≠ 0) (c : ℚ) :
    variance (List.replicate n c) = 0 := by
  rw [variance, List.map_replicate, mean_replicate hn, sub_self,
    zero_pow (two_ne_zero), List.sum_replicate, smul_zero, zero_div]

/-- The twenty-sample fixture named in the spec (§8) and in claim C1. -/
def c1data : List ℚ :=
  [22.5, 24.3, 23.8, 25.7, 22.1, 26.4, 24.9, 23.2, 95.8, 25.5,
   24.1, 22.8, 26.7, 23.5, 25.2, 24.8, 108.3, 23.9, 25.6, 22.4]

lemma c1_mean : mean c1data = 1283 / 40 := by
  norm_num [mean, c1data]

lemma c1_variance : variance c1data = 4396863 / 8000 := by
  rw [variance, c1_mean]
  norm_num [c1data]

lemma c1_flagged : (detectAnomaliesZScore c1data 3 0).map AnomalyResult.index
    = [16] := by
  rw [detectZScore_indices c1data 3 0 (by norm_num [c1data])
    (by rw [c1_variance]; norm_num) (by norm_num)]
  simp only [c1_variance, c1_mean]
  norm_num [c1data, List.enum, List.enumFrom, List.filter_cons]

/-- Claim C1, counterexample: on the twenty-sample fixture with sensitivity 3
the z-score detector does NOT flag exactly indices 8 and 16 — the z-score of
index 8 (value 95.8) is about 2.718, below the cutoff 3, so only index 16 is
flagged. -/
theorem C1_counterexample :
    ¬ (detectAnomaliesZScore c1data 3 0).map AnomalyResult.index = [8, 16] := by
  rw [c1_flagged]
  simp

/-- Claim C1, amended: on the twenty-sample fixture with sensitivity 3 the
z-score detector flags exactly the sample at index 16 (value 108.3, z-score
about 3.251) and no other index; index 8 (value 95.8, z-score about 2.718)
stays below the cutoff. -/
theorem C1_zscore_flags_only_16 :
    (detectAnomaliesZScore c1data 3 0).map AnomalyResult.index = [16] :=
  c1_flagged

/-- Claim C10: on every constant-valued input of length at least 3 and every
positive sensitivity, the z-score detector returns the empty list — the
variance is 0, the `std || 1` guard makes every z-score 0, and 0 never exceeds
a positive threshold. -/
theorem C10_constant_data_never_flagged (c : ℚ) (n : ℕ) (s : ℚ) (now : ℤ)
    (hn : 3 ≤ n) (hs : 0 < s) :
    detectAnomaliesZScore (List.replicate n c) s now = [] := by
  have hne : n ≠ 0 := by omega
  rw [detectAnomaliesZScore,
    if_neg (by rw [List.length_replicate]; omega)]
  rw [List.filterMap_eq_nil_iff]
  intro p hp
  have hp2 : p.2 = c := by
    have hmem : p.2 ∈ List.replicate n c := by
      have h := List.mem_map_of_mem Prod.snd hp
      rwa [List.enum_map_snd] at h
    exact List.eq_of_mem_replicate hmem
  rw [if_neg]
  have hz : zScore (List.replicate n c) p.2 = 0 := by
    rw [hp2, zScore, mean_replicate hne]
    simp [std, variance_replicate hne]
  rw [hz]
  exact not_lt.mpr (by exact_mod_cast hs.le)

/-- Witness for C10 at a concrete input. -/
theorem C10_witness :
    detectAnomaliesZScore (List.replicate 3 (5 : ℚ)) 1 0 = [] :=
  C10_constant_data_never_flagged 5 3 1 0 (by norm_num) (by norm_num)

/-- `[...data].sort((a, b) => a - b)` — ascending stable sort of a copy. -/
def iqrSorted (data : List ℚ) : List ℚ :=
  data.insertionSort (· ≤ ·)

/-- `sorted[Math.floor(sorted.length * 0.25)]` — first quartile (rank floor,
no interpolation). -/
def iqrQ1 (data : List ℚ) : ℚ :=
  (iqrSorted data).getD (Nat.floor (((iqrSorted data).length : ℚ) * 0.25)) 0

/-- `sorted[Math.floor(sorted.length * 0.75)]` — third quartile. -/
def iqrQ3 (data : List ℚ) : ℚ :=
  (iqrSorted data).getD (Nat.floor (((iqrSorted data).length : ℚ) * 0.75)) 0

/-- `iqr = q3 - q1`. -/
def iqrOf (data : List ℚ) : ℚ :=
  iqrQ3 data - iqrQ1 data

/-- `lowerBound = q1 - sensitivity * iqr`. -/
def iqrLowerBound (data : List ℚ) (sensitivity : ℚ) : ℚ :=
  iqrQ1 data - sensitivity * iqrOf data

/-- `upperBound = q3 + sensitivity * iqr`. -/
def iqrUpperBound (data : List ℚ) (sensitivity : ℚ) : ℚ :=
  iqrQ3 data + sensitivity * iqrOf data

/-- `detectAnomaliesIQR(data, sensitivity)` (source lines 42–79): fewer than 4
samples yields `[]`; a sample strictly outside the bounds is flagged with
score `distance / iqr`, where `distance` is the distance to the nearer bound.
The source divides by `iqr` with no zero guard: in Lean `q / 0 = 0`, whereas
IEEE arithmetic yields `+∞` — the `score` field is faithful only when
`iqrOf data ≠ 0` (see the C6 theorem, which exhibits a flagged sample whose
score divides the positive distance 4 by a zero interquartile range). -/
noncomputable def detectAnomaliesIQR (data : List ℚ) (sensitivity : ℚ)
    (now : ℤ) : List AnomalyResult :=
  if data.length < 4 then []
  else
    data.enum.filterMap (fun p =>
      if p.2 < iqrLowerBound data sensitivity
          ∨ iqrUpperBound data sensitivity < p.2 then
        some { index := p.1
               value := p.2
               timestamp := now - ((data.length : ℤ) - (p.1 : ℤ)) * 1000
               score := ((min |p.2 - iqrLowerBound data sensitivity|
                   |p.2 - iqrUpperBound data sensitivity| / iqrOf data : ℚ) : ℝ)
               method := Method.iqr }
      else none)

lemma c6_sorted : iqrSorted [1, 5, 5, 5] = [1, 5, 5, 5] := by
  norm_num [iqrSorted, List.insertionSort, List.orderedInsert]

lemma c6_q1 : iqrQ1 [1, 5, 5, 5] = 5 := by
  rw [iqrQ1, c6_sorted]
  norm_num

lemma c6_q3 : iqrQ3 [1, 5, 5, 5] = 5 := by
  rw [iqrQ3, c6_sorted]
  norm_num

lemma c6_iqr : iqrOf [1, 5, 5, 5] = 0 := by
  rw [iqrOf, c6_q1, c6_q3, sub_self]

lemma c6_lb : iqrLowerBound [1, 5, 5, 5] 2 = 5 := by
  rw [iqrLowerBound, c6_q1, c6_iqr, mul_zero, sub_zero]

lemma c6_ub : iqrUpperBound [1, 5, 5, 5] 2 = 5 := by
  rw [iqrUpperBound, c6_q3, c6_iqr, mul_zero, add_zero]

/-- Claim C6, failing-input evaluation: on `[1, 5, 5, 5]` with sensitivity 2
the interquartile range is exactly 0, yet the sample at index 0 is still
flagged (it lies below the degenerate bounds `[5, 5]`), and its distance to
the nearer bound is 4, so the source's unguarded `score = distance / iqr`
divides the positive number 4 by zero — in IEEE arithmetic a non-finite
score, contradicting the claimed guard. -/
theorem C6_iqr_zero_division :
    iqrOf [1, 5, 5, 5] = 0
    ∧ (detectAnomaliesIQR [1, 5, 5, 5] 2 0).map AnomalyResult.index = [0]
    ∧ min |(1 : ℚ) - iqrLowerBound [1, 5, 5, 5] 2|
        |(1 : ℚ) - iqrUpperBound [1, 5, 5, 5] 2| = 4 := by
  refine ⟨c6_iqr, ?_, ?_⟩
  · rw [detectAnomaliesIQR, if_neg (by norm_num)]
    simp only [c6_lb, c6_ub]
    norm_num [List.enum, List.enumFrom, List.filterMap_cons]
  · rw [c6_lb, c6_ub]
    norm_num

/-- The record returned by `calculateStats` (spec §3 `DescriptiveStats`). -/
structure Stats where
  mean : ℚ
  median : ℚ
  min : ℚ
  max : ℚ
  stdDev : ℝ
  variance : ℚ
  count : ℕ

/-- `calculateStats(data)` (source lines 424–447): `null` on empty input;
otherwise the arithmetic mean, the element at index
`Math.floor(sorted.length / 2)` of the ascending sorted copy as median, the
first and last sorted elements as min and max, the population variance
(divide by count) and its square root as standard deviation. -/
noncomputable def calculateStats (data : List ℚ) : Option Stats :=
  if data.length = 0 then none
  else
    some { mean := mean data
           median := (iqrSorted data).getD ((iqrSorted data).length / 2) 0
           min := (iqrSorted data).getD 0 0
           max := (iqrSorted data).getD ((iqrSorted data).length - 1) 0
           stdDev := Real.sqrt ((variance data : ℚ) : ℝ)
           variance := variance data
           count := data.length }

lemma getD_zero_le_of_sorted {l : List ℚ} (hs : l.Sorted (· ≤ ·)) {x : ℚ}
    (hx : x ∈ l) : l.getD 0 0 ≤ x := by
  cases l with
  | nil => cases hx
  | cons a t =>
    rw [List.sorted_cons] at hs
    rcases List.mem_cons.mp hx with rfl | hxt
    · simp
    · simpa using hs.1 x hxt

lemma le_getD_last_of_sorted {l : List ℚ} (hs : l.Sorted (· ≤ ·)) {x : ℚ}
    (hx : x ∈ l) : x ≤ l.getD (l.length - 1) 0 := by
  induction l with
  | nil => cases hx
  | cons a t ih =>
    rw [List.sorted_cons] at hs
    cases t with
    | nil =>
      rcases List.mem_cons.mp hx with rfl | hxt
      · simp
      · cases hxt
    | cons b u =>
      have hlen : (a :: b :: u).length - 1 = ((b :: u).length - 1) + 1 := by
        simp
      rw [hlen, List.getD_cons_succ]
      rcases List.mem_cons.mp hx with rfl | hxt
      · have hmem : (b :: u).getD ((b :: u).length - 1) 0 ∈ b :: u := by
          rw [List.getD_eq_getElem _ _ (by simp)]
          exact List.getElem_mem _
        exact hs.1 _ hmem
      · exact ih hs.2 hxt

lemma getD_mem_of_lt {l : List ℚ} {i : ℕ} (h : i < l.length) :
    l.getD i 0 ∈ l := by
  rw [List.getD_eq_getElem _ _ h]
  exact List.getElem_mem _

/-- Claim C2: on the empty sequence `calculateStats` returns the absent
result; on any non-empty sequence it returns the length as count, the
arithmetic mean, the element at index `⌊n / 2⌋` of the sorted copy as median
(no even-length interpolation), the true minimum and maximum, the population
variance (divide by count, not count − 1) and its square root as standard
deviation; on `[1, 2, 3, 4, 5]` it returns mean 3, median 3, min 1, max 5,
variance 2 and standard deviation √2. -/
theorem C2_calculateStats :
    calculateStats [] = none
    ∧ (∀ data : List ℚ, data ≠ [] → ∃ st, calculateStats data = some st
        ∧ st.count = data.length
        ∧ st.mean = data.sum / data.length
        ∧ st.median = (data.insertionSort (· ≤ ·)).getD (data.length / 2) 0
        ∧ st.median ∈ data
        ∧ st.min ∈ data ∧ (∀ x ∈ data, st.min ≤ x)
        ∧ st.max ∈ data ∧ (∀ x ∈ data, x ≤ st.max)
        ∧ st.variance
            = (data.map (fun v => (v - data.sum / data.length) ^ 2)).sum
                / data.length
        ∧ st.stdDev = Real.sqrt ((st.variance : ℚ) : ℝ))
    ∧ calculateStats [1, 2, 3, 4, 5] = some ⟨3, 3, 1, 5, Real.sqrt 2, 2, 5⟩ := by
  refine ⟨by simp [calculateStats], ?_, ?_⟩
  · intro data hne
    have hlen : data.length ≠ 0 := by
      simpa [List.length_eq_zero] using hne
    have hsort : (iqrSorted data).Sorted (· ≤ ·) :=
      List.sorted_insertionSort _ data
    have hperm : List.Perm (iqrSorted data) data :=
      List.perm_insertionSort _ data
    have hslen : (iqrSorted data).length = data.length :=
      hperm.length_eq
    refine ⟨_, by rw [calculateStats, if_neg hlen], rfl, rfl, ?_, ?_, ?_, ?_,
      ?_, ?_, rfl, rfl⟩
    · rw [hslen]
      rfl
    · exact hperm.subset (getD_mem_of_lt (by omega))
    · exact hperm.subset (getD_mem_of_lt (by omega))
    · intro x hx
      exact getD_zero_le_of_sorted hsort (hperm.mem_iff.mpr hx)
    · exact hperm.subset (getD_mem_of_lt (by omega))
    · intro x hx
      exact le_getD_last_of_sorted hsort (hperm.mem_iff.mpr hx)
  · rw [calculateStats, if_neg (by norm_num)]
    have hs5 : iqrSorted [1, 2, 3, 4, 5] = [1, 2, 3, 4, 5] := by
      norm_num [iqrSorted, List.insertionSort, List.orderedInsert]
    have hv5 : variance [1, 2, 3, 4, 5] = 2 := by
      have hm : mean [1, 2, 3, 4, 5] = 3 := by norm_num [mean]
      rw [variance, hm]
      norm_num
    rw [hs5, hv5]
    norm_num [mean]

/-- Witness for the universally quantified part of C2, at `[1, 2]`. -/
theorem C2_witness :
    ∃ st, calculateStats [(1 : ℚ), 2] = some st
      ∧ st.count = ([(1 : ℚ), 2]).length
      ∧ st.mean = ([(1 : ℚ), 2]).sum / ([(1 : ℚ), 2]).length
      ∧ st.median
          = (([(1 : ℚ), 2]).insertionSort (· ≤ ·)).getD
              (([(1 : ℚ), 2]).length / 2) 0
      ∧ st.median ∈ [(1 : ℚ), 2]
      ∧ st.min ∈ [(1 : ℚ), 2] ∧ (∀ x ∈ [(1 : ℚ), 2], st.min ≤ x)
      ∧ st.max ∈ [(1 : ℚ), 2] ∧ (∀ x ∈ [(1 : ℚ), 2], x ≤ st.max)
      ∧ st.variance
          = (([(1 : ℚ), 2]).map
              (fun v => (v - ([(1 : ℚ), 2]).sum / ([(1 : ℚ), 2]).length) ^ 2)).sum
              / ([(1 : ℚ), 2]).length
      ∧ st.stdDev = Real.sqrt ((st.variance : ℚ) : ℝ) :=
  C2_calculateStats.2.1 [1, 2] (by simp)

/-- `calculateSlope(data)` (source lines 261–274): closed-form
ordinary-least-squares slope over the points `(0, y₀) … (n−1, yₙ₋₁)`; 0 when
fewer than 2 points, and 0 when the regression denominator magnitude is below
the negligibility threshold 0.0001. -/
def calculateSlope (data : List ℚ) : ℚ :=
  if data.length < 2 then 0
  else
    let n : ℚ := data.length
    let sumX := n * (n - 1) / 2
    let sumY := data.sum
    let sumXY := (data.enum.map (fun p => (p.1 : ℚ) * p.2)).sum
    let sumX2 := n * (n - 1) * (2 * n - 1) / 6
    let denom := n * sumX2 - sumX * sumX
    if |denom| < 0.0001 then 0
    else (n * sumXY - sumX * sumY) / denom

/-- `Math.max(5, Math.floor(data.length * 0.3))` — size of the recent window
used by the fallback forecaster. -/
def lookbackOf (data : List ℚ) : ℕ :=
  max 5 (Nat.floor ((data.length : ℚ) * 0.3))

/-- `data.slice(-lookback)` — the most recent `lookback` samples. -/
def recentData (data : List ℚ) : List ℚ :=
  data.drop (data.length - lookbackOf data)

/-- `simpleLinearPrediction(data, steps)` (source lines 277–307): the
deterministic linear fallback.  For each step `i = 1 .. steps` it
extrapolates `lastValue + slope·i`, dampens it by `exp(−0.12·i)` toward the
recent-window mean, and attaches confidence `max(0.3, 1 − 0.6·(i/steps))`.
The step count is kept as an integer because the source never validates it: a
negative count makes the `for` loop body run zero times.  An empty input is
outside the caller contract (§6): JavaScript would produce NaN there, and the
embedding reads the last element with default 0. -/
noncomputable def simpleLinearPrediction (data : List ℚ) (steps : ℤ)
    (now : ℤ) : List TrendPrediction :=
  let slope := calculateSlope (recentData data)
  let recentMean := mean (recentData data)
  let lastValue := data.getLastD 0
  (List.range steps.toNat).map (fun k =>
    let i : ℕ := k + 1
    let trendValue := lastValue + slope * (i : ℚ)
    let dampening : ℝ := Real.exp (-(i : ℝ) * 0.12)
    { timestamp := now + (i : ℤ) * 60000
      value := ((trendValue : ℚ) : ℝ) * dampening
          + ((recentMean : ℚ) : ℝ) * (1 - dampening)
      confidence := max 0.3 (1 - ((i : ℚ) / (steps : ℚ)) * 0.6) })

/-- The primary-path per-step confidence (source lines 227–231): the step
decay `0.92^(i−1)` times a penalty for predictions far from the last actual
value, clamped to `[0.4, 0.95]`.  It is a function of the value the trained
network predicts at that step. -/
def primaryConfidence (lastActualValue predictedValue : ℚ) (i : ℕ) : ℚ :=
  let distance := |predictedValue - lastActualValue|
  let stepDecay := (0.92 : ℚ) ^ (i - 1)
  let distancePenalty := max 0 (1 - distance / (|lastActualValue| + 1) * 0.5)
  max 0.4 (min 0.95 (stepDecay * distancePenalty))

/-- `predictTrend(data, steps)` (source lines 144–258): fewer than 5 samples
go straight to the linear fallback; otherwise a small network is trained with
tf.js and its autoregressive rollout is returned, falling back to the linear
path when training is infeasible or fails.  The tf.js training runs outside
this repository and is nondeterministic (dropout, per-epoch shuffling), so
its outcome is modelled as an explicit parameter; `none` stands for the
infeasible or failing case. -/
noncomputable def predictTrend (data : List ℚ) (steps : ℤ) (now : ℤ)
    (primaryOutcome : Option (List TrendPrediction)) : List TrendPrediction :=
  if data.length < 5 then simpleLinearPrediction data steps now
  else
    match primaryOutcome with
    | some preds => preds
    | none => simpleLinearPrediction data steps now

/-- Claim C8, counterexample: a negative step count is not rejected with an
error — the forecaster's step loop simply never runs and the call silently
returns the empty forecast, on the fallback path and on the routed entry
point alike. -/
theorem C8_counterexample :
    simpleLinearPrediction [1, 2, 3] (-1) 0 = []
      ∧ predictTrend [1, 2, 3] (-1) 0 none = [] := by
  constructor <;>
    simp [predictTrend, simpleLinearPrediction]

/-- Claim C8, amended: the forecaster performs no validation of the step
count.  Every step count below 1 — in particular every negative one — is
silently coerced into the empty forecast; no error is signalled (the
functions are total and never reject). -/
theorem C8_negative_steps_coerced (data : List ℚ) (steps : ℤ) (now : ℤ)
    (h : steps < 1) :
    simpleLinearPrediction data steps now = []
      ∧ predictTrend data steps now none = [] := by
  have ht : steps.toNat = 0 := by omega
  have hs : simpleLinearPrediction data steps now = [] := by
    simp [simpleLinearPrediction, ht]
  refine ⟨hs, ?_⟩
  by_cases h5 : data.length < 5 <;> simp [predictTrend, h5, hs]

/-- Witness for C8 at a concrete negative step count. -/
theorem C8_witness :
    simpleLinearPrediction [(7 : ℚ)] (-3) 5 = []
      ∧ predictTrend [(7 : ℚ)] (-3) 5 none = [] :=
  C8_negative_steps_coerced [7] (-3) 5 (by norm_num)

/-- Claim C3, counterexample: the primary path's per-step confidence is not
monotonically non-increasing.  With last actual value 0, a step-1 prediction
of 10 gets confidence 0.4 while a step-2 prediction of 0 gets confidence
0.92 — a later step can have strictly higher confidence, because the distance
penalty depends on the model's per-step output and is not constrained across
steps. -/
theorem C3_counterexample :
    primaryConfidence 0 10 1 < primaryConfidence 0 0 2 := by
  norm_num [primaryConfidence]

/-- Claim C3, amended: the fallback path returns exactly `steps` forecast
points, step 1 first (timestamp `now + i·60000`), with confidence
`max(0.3, 1 − 0.6·(i/steps))`, which on steps 1..N equals `1 − 0.6·(i/steps)`
and is strictly decreasing; the primary path's confidence is clamped to
`[0.4, 0.95]` but is not non-increasing by construction (see the
counterexample). -/
theorem C3_fallback_confidence (data : List ℚ) (steps : ℤ) (now : ℤ)
    (h : 1 ≤ steps) :
    (simpleLinearPrediction data steps now).length = steps.toNat
    ∧ (∀ k, ∀ hk : k < (simpleLinearPrediction data steps now).length,
        ((simpleLinearPrediction data steps now).get ⟨k, hk⟩).timestamp
            = now + ((k : ℤ) + 1) * 60000
        ∧ ((simpleLinearPrediction data steps now).get ⟨k, hk⟩).confidence
            = max 0.3 (1 - (((k : ℚ) + 1) / ((steps : ℤ) : ℚ)) * 0.6)
        ∧ ((simpleLinearPrediction data steps now).get ⟨k, hk⟩).confidence
            = 1 - (((k : ℚ) + 1) / ((steps : ℤ) : ℚ)) * 0.6)
    ∧ (∀ j k, ∀ hj : j < k, ∀ hk : k < (simpleLinearPrediction data steps now).length,
        ((simpleLinearPrediction data steps now).get ⟨k, hk⟩).confidence
          < ((simpleLinearPrediction data steps now).get ⟨j, lt_trans hj hk⟩).confidence)
    ∧ (∀ last pred i, 0.4 ≤ primaryConfidence last pred i
        ∧ primaryConfidence last pred i ≤ 0.95) := by
  have hlen : (simpleLinearPrediction data steps now).length = steps.toNat := by
    simp [simpleLinearPrediction]
  have hq : (0 : ℚ) < ((steps : ℤ) : ℚ) := by
    exact_mod_cast lt_of_lt_of_le Int.zero_lt_one h
  have hconf : ∀ k, ∀ hk : k < (simpleLinearPrediction data steps now).length,
      ((simpleLinearPrediction data steps now).get ⟨k, hk⟩).confidence
        = 1 - (((k : ℚ) + 1) / ((steps : ℤ) : ℚ)) * 0.6 := by
    intro k hk
    have hks : (k : ℤ) + 1 ≤ steps := by
      rw [hlen] at hk
      omega
    have hksq : ((k : ℚ) + 1) ≤ ((steps : ℤ) : ℚ) := by
      exact_mod_cast hks
    have hratonele : ((k : ℚ) + 1) / ((steps : ℤ) : ℚ) ≤ 1 :=
      (div_le_one hq).mpr hksq
    have hcl : (0.3 : ℚ) ≤ 1 - (((k : ℚ) + 1) / ((steps : ℤ) : ℚ)) * 0.6 := by
      nlinarith
    simp only [simpleLinearPrediction, List.get_eq_getElem, List.getElem_map,
      List.getElem_range]
    rw [max_eq_right]
    · push_cast
      ring
    · push_cast
      linarith
  refine ⟨hlen, ?_, ?_, ?_⟩
  · intro k hk
    refine ⟨?_, ?_, hconf k hk⟩
    · simp only [simpleLinearPrediction, List.get_eq_getElem, List.getElem_map,
        List.getElem_range]
      push_cast
      ring
    · rw [hconf k hk, max_eq_right]
      have hks : (k : ℤ) + 1 ≤ steps := by
        rw [hlen] at hk
        omega
      have hksq : ((k : ℚ) + 1) ≤ ((steps : ℤ) : ℚ) := by exact_mod_cast hks
      have := (div_le_one hq).mpr hksq
      nlinarith
  · intro j k hj hk
    rw [hconf k hk, hconf j (lt_trans hj hk)]
    have hjk : ((j : ℚ) + 1) < ((k : ℚ) + 1) := by
      have : (j : ℚ) < (k : ℚ) := by exact_mod_cast hj
      linarith
    have : ((j : ℚ) + 1) / ((steps : ℤ) : ℚ)
        < ((k : ℚ) + 1) / ((steps : ℤ) : ℚ) := by
      gcongr
    nlinarith
  · intro last pred i
    refine ⟨le_max_left _ _, ?_⟩
    exact max_le (by norm_num) (min_le_left _ _)

/-- Witness for C3 at a concrete call (the length conjunct, instantiated). -/
theorem C3_witness :
    (simpleLinearPrediction [(1 : ℚ), 2, 3] 2 0).length = (2 : ℤ).toNat :=
  (C3_fallback_confidence [1, 2, 3] 2 0 (by norm_num)).1

lemma blend_between (a b d : ℝ) (h0 : 0 < d) (h1 : d < 1) :
    min a b ≤ a * d + b * (1 - d) ∧ a * d + b * (1 - d) ≤ max a b := by
  have h2 : (0 : ℝ) ≤ 1 - d := by linarith
  constructor
  · nlinarith [min_le_left a b, min_le_right a b]
  · nlinarith [le_max_left a b, le_max_right a b]

/-- Claim C4: on the fallback path the forecast value at step `i = k + 1`
equals `(lastValue + slope·i)·exp(−0.12·i) + recentMean·(1 − exp(−0.12·i))`,
where `slope` is `calculateSlope` of the most recent
`max(5, ⌊n·0.3⌋)` samples (the closed-form OLS slope, zeroed when the
regression denominator is negligible), `lastValue` is the last element of the
full input, and `recentMean` is the mean of that recent window; consequently
each forecast value lies between the raw trend value and the recent-window
mean. -/
theorem C4_fallback_values (data : List ℚ) (steps : ℤ) (now : ℤ)
    (hne : data ≠ []) (k : ℕ)
    (hk : k < (simpleLinearPrediction data steps now).length) :
    ((simpleLinearPrediction data steps now).get ⟨k, hk⟩).value
        = ((data.getLast hne
              + calculateSlope (recentData data) * ((k : ℚ) + 1) : ℚ) : ℝ)
            * Real.exp (-((k : ℝ) + 1) * 0.12)
          + ((mean (recentData data) : ℚ) : ℝ)
            * (1 - Real.exp (-((k : ℝ) + 1) * 0.12))
    ∧ min ((data.getLast hne
              + calculateSlope (recentData data) * ((k : ℚ) + 1) : ℚ) : ℝ)
          ((mean (recentData data) : ℚ) : ℝ)
        ≤ ((simpleLinearPrediction data steps now).get ⟨k, hk⟩).value
    ∧ ((simpleLinearPrediction data steps now).get ⟨k, hk⟩).value
        ≤ max ((data.getLast hne
              + calculateSlope (recentData data) * ((k : ℚ) + 1) : ℚ) : ℝ)
          ((mean (recentData data) : ℚ) : ℝ) := by
  have hlast : data.getLastD 0 = data.getLast hne := by
    rw [List.getLastD_eq_getLast?, List.getLast?_eq_getLast data hne]
    rfl
  have harg : -(((k + 1 : ℕ) : ℝ)) * 0.12 = -((k : ℝ) + 1) * 0.12 := by
    push_cast
    ring
  have hval : ((simpleLinearPrediction data steps now).get ⟨k, hk⟩).value
      = ((data.getLast hne
            + calculateSlope (recentData data) * ((k : ℚ) + 1) : ℚ) : ℝ)
          * Real.exp (-((k : ℝ) + 1) * 0.12)
        + ((mean (recentData data) : ℚ) : ℝ)
          * (1 - Real.exp (-((k : ℝ) + 1) * 0.12)) := by
    simp only [simpleLinearPrediction, List.get_eq_getElem, List.getElem_map,
      List.getElem_range]
    rw [hlast, harg]
    push_cast
    ring
  have hexp0 : 0 < Real.exp (-((k : ℝ) + 1) * 0.12) := Real.exp_pos _
  have hexp1 : Real.exp (-((k : ℝ) + 1) * 0.12) < 1 := by
    rw [Real.exp_lt_one_iff]
    nlinarith [Nat.cast_nonneg (α := ℝ) k]
  have hb := blend_between
    ((data.getLast hne
        + calculateSlope (recentData data) * ((k : ℚ) + 1) : ℚ) : ℝ)
    ((mean (recentData data) : ℚ) : ℝ)
    (Real.exp (-((k : ℝ) + 1) * 0.12)) hexp0 hexp1
  exact ⟨hval, hval ▸ hb.1, hval ▸ hb.2⟩

/-- Witness for C4 at the concrete call `simpleLinearPrediction [1, 2, 3] 2 0`,
step 1 (the value-formula conjunct, instantiated). -/
theorem C4_witness :
    ((simpleLinearPrediction [(1 : ℚ), 2, 3] 2 0).get
        ⟨0, by norm_num [simpleLinearPrediction]⟩).value
      = ((([(1 : ℚ), 2, 3]).getLast (by simp)
            + calculateSlope (recentData [(1 : ℚ), 2, 3])
                * (((0 : ℕ) : ℚ) + 1) : ℚ) : ℝ)
          * Real.exp (-(((0 : ℕ) : ℝ) + 1) * 0.12)
        + ((mean (recentData [(1 : ℚ), 2, 3]) : ℚ) : ℝ)
          * (1 - Real.exp (-(((0 : ℕ) : ℝ) + 1) * 0.12)) :=
  (C4_fallback_values [1, 2, 3] 2 0 (by simp) 0
    (by norm_num [simpleLinearPrediction])).1

/-- The tf.js elementwise standardization (source lines 92–99):
`(x − mean) / (std + 1e−7)` over the whole input. -/
noncomputable def mlNormalize (data : List ℚ) : List ℝ :=
  data.map (fun v => (((v : ℚ) : ℝ) - ((mean data : ℚ) : ℝ)) / (std data + 1e-7))

/-- The sliding-window reconstruction-error scan inside the `try` block of
`detectAnomaliesML` (source lines 102–129): window size `min(5, ⌊n / 3⌋)`,
threshold `sensitivity · 0.8`, and for every position at or past the window
the local deviation `|current − windowMean| / (windowStd + 1e−7)` of the
standardized value from the window statistics. -/
noncomputable def mlDetectCore (data : List ℚ) (sensitivity : ℚ)
    (now : ℤ) : List AnomalyResult :=
  let sequence := mlNormalize data
  let windowSize := min 5 (data.length / 3)
  ((List.range data.length).drop windowSize).filterMap (fun i =>
    let window := (sequence.drop (i - windowSize)).take windowSize
    let current := sequence.getD i 0
    let windowMean := window.sum / window.length
    let windowStd := Real.sqrt
      ((window.map (fun v => (v - windowMean) ^ 2)).sum / window.length)
    if ((sensitivity * 0.8 : ℚ) : ℝ) < |current - windowMean| / (windowStd + 1e-7) then
      some { index := i
             value := data.getD i 0
             timestamp := now - ((data.length : ℤ) - (i : ℤ)) * 1000
             score := |current - windowMean| / (windowStd + 1e-7)
             method := Method.ml }
    else none)

/-- `detectAnomaliesML(data, sensitivity)` (source lines 82–141): fewer than 5
samples yields `[]`; otherwise the reconstruction-error scan runs inside a
`try` block and on ANY internal failure the `catch` clause returns
`detectAnomaliesZScore(data, sensitivity * 10)`.  The failure event
originates in the tf.js runtime, which lives outside this repository, so it
is modelled as an explicit `failed` flag selecting the `catch` path. -/
noncomputable def detectAnomaliesML (data : List ℚ) (sensitivity : ℚ)
    (now : ℤ) (failed : Bool) : List AnomalyResult :=
  if data.length < 5 then []
  else if failed then detectAnomaliesZScore data (sensitivity * 10) now
  else mlDetectCore data sensitivity now

/-- Claim C5: whenever the reconstruction-error variant fails internally — for
any reason — it returns exactly the z-score variant's result on the same
input with the caller's sensitivity multiplied by 10; no error propagates and
the result is never left empty while the statistical method can run. -/
theorem C5_ml_failure_falls_back_to_zscore (data : List ℚ) (sensitivity : ℚ)
    (now : ℤ) (h : 5 ≤ data.length) :
    detectAnomaliesML data sensitivity now true
      = detectAnomaliesZScore data (sensitivity * 10) now := by
  rw [detectAnomaliesML, if_neg (by omega), if_pos rfl]

/-- Witness for C5 at a concrete five-sample input. -/
theorem C5_witness :
    detectAnomaliesML [(1 : ℚ), 2, 3, 4, 5] 1 0 true
      = detectAnomaliesZScore [(1 : ℚ), 2, 3, 4, 5] (1 * 10) 0 :=
  C5_ml_failure_falls_back_to_zscore [1, 2, 3, 4, 5] 1 0 (by simp)

/-- Adding a clock offset to an anomaly record's synthesized timestamp. -/
def shiftAnomaly (d : ℤ) (r : AnomalyResult) : AnomalyResult :=
  { r with timestamp := r.timestamp + d }

/-- Adding a clock offset to a forecast point's timestamp. -/
def shiftForecast (d : ℤ) (p : TrendPrediction) : TrendPrediction :=
  { p with timestamp := p.timestamp + d }

/-- Claim C7, counterexample: two calls with identical input sequence and
identical parameters are NOT identical in all field values — the synthesized
timestamps come from the ambient clock (`Date.now()`), so a call made one
minute later returns different timestamp fields. -/
theorem C7_counterexample :
    simpleLinearPrediction [1, 2, 3] 1 0
      ≠ simpleLinearPrediction [1, 2, 3] 1 60000 := by
  intro h
  have h2 := congrArg (List.map TrendPrediction.timestamp) h
  norm_num [simpleLinearPrediction, List.range_succ] at h2

/-- Claim C7, amended: each embedded detector and the fallback forecaster is
a deterministic function of its input, its parameters and the clock reading;
the clock affects only the timestamp fields, which shift by exactly the
clock delta, so two calls with identical arguments and identical clock
reading yield identical results, and calls at different instants agree on
every field except the timestamps. -/
theorem C7_deterministic_up_to_clock (data : List ℚ) (s : ℚ) (steps : ℤ)
    (now d : ℤ) :
    detectAnomaliesZScore data s (now + d)
        = (detectAnomaliesZScore data s now).map (shiftAnomaly d)
    ∧ detectAnomaliesIQR data s (now + d)
        = (detectAnomaliesIQR data s now).map (shiftAnomaly d)
    ∧ simpleLinearPrediction data steps (now + d)
        = (simpleLinearPrediction data steps now).map (shiftForecast d) := by
  refine ⟨?_, ?_, ?_⟩
  · by_cases h3 : data.length < 3
    · simp [detectAnomaliesZScore, h3]
    · rw [detectAnomaliesZScore, detectAnomaliesZScore, if_neg h3, if_neg h3,
        List.map_filterMap]
      refine congrArg (fun g => List.filterMap g data.enum) (funext fun p => ?_)
      by_cases hc : ((s : ℚ) : ℝ) < zScore data p.2
      · simp only [if_pos hc, Option.map_some']
        refine congrArg some ?_
        simp only [shiftAnomaly, AnomalyResult.mk.injEq, true_and, and_true]
        omega
      · simp [if_neg hc]
  · by_cases h4 : data.length < 4
    · simp [detectAnomaliesIQR, h4]
    · rw [detectAnomaliesIQR, detectAnomaliesIQR, if_neg h4, if_neg h4,
        List.map_filterMap]
      refine congrArg (fun g => List.filterMap g data.enum) (funext fun p => ?_)
      by_cases hc : p.2 < iqrLowerBound data s ∨ iqrUpperBound data s < p.2
      · simp only [if_pos hc, Option.map_some']
        refine congrArg some ?_
        simp only [shiftAnomaly, AnomalyResult.mk.injEq, true_and, and_true]
        omega
      · simp [if_neg hc]
  · rw [simpleLinearPrediction, simpleLinearPrediction, List.map_map]
    refine congrArg (fun g => List.map g (List.range steps.toNat))
      (funext fun k => ?_)
    simp only [Function.comp, shiftForecast, TrendPrediction.mk.injEq, true_and,
      and_true]
    omega

/-- Witness for C7 (degenerate: the statement has no proposition hypotheses,
but instantiating it at a concrete clock pair documents the shift). -/
theorem C7_witness :
    detectAnomaliesZScore [(1 : ℚ), 2, 3] 2 (0 + 1000)
      = (detectAnomaliesZScore [(1 : ℚ), 2, 3] 2 0).map (shiftAnomaly 1000) :=
  (C7_deterministic_up_to_clock [1, 2, 3] 2 1 0 1000).1

/-- The severity tag of an insight (`'info' | 'warning' | 'critical'`). -/
inductive InsightType
  | info
  | warning
  | critical
deriving DecidableEq, Repr

/-- Which rule produced an insight, with the numeric quantities the source
interpolates into its message string.  The source renders these into prose
with `toFixed`; decimal string formatting of IEEE numbers is outside the
embedding, so a message is represented by its rule tag and numeric payload. -/
inductive InsightMsg
  | notEnoughData
  | anomalySummary (count : ℕ)
  | latestSwing (change : ℚ)
  | overallTrend (trendChange : ℚ)
  | forecastShift (predChange : ℝ)
  | aboveAverage (latest pct : ℚ)
  | belowAverage (latest pct : ℚ)
  | highVolatility (vol : ℝ)
  | lowVolatility

/-- `AIInsight` from `types.ts`. -/
structure AIInsight where
  type : InsightType
  msg : InsightMsg
  confidence : ℚ

/-- `generateAIInsights(data, anomalies, predictions)` (source lines
310–421): with fewer than 2 samples, a single full-confidence info insight;
otherwise the ordered concatenation of the outputs of the independent rules —
anomaly presence, latest-value swing, half-series trend, forecast
divergence, extreme current value, volatility.  The volatility is the
source's inline `Math.sqrt(Σ(v − mean)² / n) / mean`, which coincides with
`std data / mean data`. -/
noncomputable def generateAIInsights (data : List ℚ)
    (anomalies : List AnomalyResult) (predictions : List TrendPrediction) :
    List AIInsight :=
  if data.length < 2 then
    [{ type := InsightType.info, msg := InsightMsg.notEnoughData,
       confidence := 1 }]
  else
    let m := mean data
    let latest := data.getD (data.length - 1) 0
    let previous := data.getD (data.length - 2) 0
    let change := (latest - previous) / previous * 100
    let firstHalf := data.take (data.length / 2)
    let secondHalf := data.drop (data.length / 2)
    let trendChange := (mean secondHalf - mean firstHalf) / mean firstHalf * 100
    (if 0 < anomalies.length then
      [{ type := if (data.length : ℚ) * 0.1 < (anomalies.length : ℚ)
             then InsightType.critical else InsightType.warning
         msg := InsightMsg.anomalySummary anomalies.length
         confidence := 0.9 }]
     else [])
    ++ (if 20 < |change| then
      [{ type := if 0 < change then InsightType.info else InsightType.warning
         msg := InsightMsg.latestSwing change
         confidence := 0.85 }]
     else [])
    ++ (if 15 < |trendChange| then
      [{ type := InsightType.info
         msg := InsightMsg.overallTrend trendChange
         confidence := 0.8 }]
     else [])
    ++ (if 0 < predictions.length then
        let avgPrediction := (predictions.map TrendPrediction.value).sum
            / (predictions.length : ℝ)
        let predChange := (avgPrediction - ((m : ℚ) : ℝ)) / ((m : ℚ) : ℝ) * 100
        if (10 : ℝ) < |predChange| then
          [{ type := if (30 : ℝ) < |predChange|
                 then InsightType.warning else InsightType.info
             msg := InsightMsg.forecastShift predChange
             confidence := 0.75 }]
        else []
      else [])
    ++ (if m * 1.5 < latest then
        [{ type := InsightType.info
           msg := InsightMsg.aboveAverage latest ((latest - m) / m * 100)
           confidence := 0.9 }]
       else if latest < m * 0.5 then
        [{ type := InsightType.warning
           msg := InsightMsg.belowAverage latest ((m - latest) / m * 100)
           confidence := 0.9 }]
       else [])
    ++ (let volatility := std data / ((m : ℚ) : ℝ)
        if (0.3 : ℝ) < volatility then
          [{ type := InsightType.warning
             msg := InsightMsg.highVolatility volatility
             confidence := 0.85 }]
        else if volatility < (0.05 : ℝ) then
          [{ type := InsightType.info
             msg := InsightMsg.lowVolatility
             confidence := 0.8 }]
        else [])

/-- Claim C9: on the two-sample input `[10, 10]` with no anomalies and no
forecasts the insight generator does not fail despite the zero variance
(every division it performs there has denominator 10 or 2), and the only
insight it emits comes from the volatility rule: the coefficient of
variation is 0 < 0.05, giving the low-volatility info insight with
confidence 0.8; the extreme-current-value rule does not fire and no rule
outside those two can. -/
theorem C9_insights_on_constant_pair :
    generateAIInsights [10, 10] [] []
      = [{ type := InsightType.info, msg := InsightMsg.lowVolatility,
           confidence := 0.8 }] := by
  rw [generateAIInsights, if_neg (by norm_num)]
  norm_num [mean, variance, std]

end AIAnalysis
